import Mathlib

/-!
Verification of `formal/model_checker.py` (Requiem bounded model checker).

Shallow embedding of the five model checks (CAS, Protocol, Replay,
Determinism, PolicyCompiler) together with proofs of the specified
invariants.  Machine behaviour is translated directly from the Python
source; random sampling is modelled by quantifying over the sampled
values, and the process-wide dictionary state is modelled by explicit
state passing.
-/

/-! ## CAS model (`check_cas`, model_checker.py lines 33-129)

The Python check uses `DIGESTS = ["d1", "d2"]` and
`CONTENT = ["c_a", "c_b"]`; we render these universes as inductive types.
The store is a Python `dict` built only by inserting fresh keys, embedded
as an association list with first-match lookup (new keys are appended at
the end, as CPython dicts preserve insertion order). -/

inductive Digest where
  | d1
  | d2
deriving DecidableEq, Repr

inductive Content where
  | ca
  | cb
deriving DecidableEq, Repr

def digestStr : Digest → String
  | .d1 => "d1"
  | .d2 => "d2"

def contentStr : Content → String
  | .ca => "c_a"
  | .cb => "c_b"

def CAS_DIGESTS : List Digest := [.d1, .d2]

def CAS_CONTENT : List Content := [.ca, .cb]

structure CasState where
  store : List (Digest × Content)
  writesOk : Finset (Digest × Content)
  errors : Finset (Digest × Content)
deriving DecidableEq

/-- The empty initial CAS state (line 57: `queue.append(({}, frozenset(), frozenset(), 0))`). -/
def casInit : CasState := ⟨[], ∅, ∅⟩

/-- One `write(d, c)` action, lines 98-116 of the source: an existing digest
with identical content is an idempotent committed write; an existing digest
with different content is a rejected collision (store untouched); a fresh
digest is stored and committed. -/
def writeResult (s : CasState) (d : Digest) (c : Content) : CasState :=
  match s.store.lookup d with
  | some c0 =>
    if c0 = c then
      { s with writesOk := insert (d, c) s.writesOk }
    else
      { s with errors := insert (d, c) s.errors }
  | none =>
    { store := s.store ++ [(d, c)]
      writesOk := insert (d, c) s.writesOk
      errors := s.errors }

/-- The successor relation generated by lines 95-116: one write of any
`(d, c)` not already recorded in `writes_ok`. -/
def CasStep (s s' : CasState) : Prop :=
  ∃ d c, (d, c) ∉ s.writesOk ∧ s' = writeResult s d c

/-- Reachability from the empty initial state. -/
def CasReachable (s : CasState) : Prop :=
  Relation.ReflTransGen CasStep casInit s

/-! ### Store lookup lemmas -/

theorem lookup_append_of_some (l m : List (Digest × Content)) (d : Digest)
    (c : Content) (h : l.lookup d = some c) : (l ++ m).lookup d = some c := by
  induction l with
  | nil => simp [List.lookup] at h
  | cons x xs ih =>
    cases x with
    | mk k v =>
      simp only [List.cons_append, List.lookup] at h ⊢
      by_cases hk : d = k
      · simpa [hk] using h
      · have hbe : (d == k) = false := by simp [hk]
        rw [hbe] at h ⊢
        exact ih h

/-- A single write never changes an existing binding in the store. -/
theorem writeResult_store_mono (s : CasState) (d' : Digest) (c' : Content)
    (d : Digest) (c : Content) (h : s.store.lookup d = some c) :
    (writeResult s d' c').store.lookup d = some c := by
  unfold writeResult
  cases hl : s.store.lookup d' with
  | some c0 =>
    by_cases hc : c0 = c'
    · simpa [hc] using h
    · simpa [hc] using h
  | none =>
    exact lookup_append_of_some _ _ _ _ h

theorem casStep_store_mono {s s' : CasState} (hstep : CasStep s s')
    (d : Digest) (c : Content) (h : s.store.lookup d = some c) :
    s'.store.lookup d = some c := by
  obtain ⟨d', c', _, rfl⟩ := hstep
  exact writeResult_store_mono s d' c' d c h

/-! ### Collision-accuracy invariant (CAS-INV-4 side) -/

/-- Every recorded collision error names a digest that is present in the
store with a different content. -/
def CasErrAccurate (s : CasState) : Prop :=
  ∀ d c, (d, c) ∈ s.errors → ∃ c0, s.store.lookup d = some c0 ∧ c0 ≠ c

theorem casErrAccurate_init : CasErrAccurate casInit := by
  intro d c hmem
  simp [casInit] at hmem

theorem casErrAccurate_step {s s' : CasState} (hstep : CasStep s s')
    (hinv : CasErrAccurate s) : CasErrAccurate s' := by
  obtain ⟨d', c', _, rfl⟩ := hstep
  intro d c hmem
  cases hl : s.store.lookup d' with
  | some c0 =>
    by_cases hc : c0 = c'
    · simp only [writeResult, hl, if_pos hc] at hmem ⊢
      exact hinv d c hmem
    · simp only [writeResult, hl, if_neg hc, Finset.mem_insert] at hmem ⊢
      rcases hmem with heq | hmem
      · obtain ⟨rfl, rfl⟩ := Prod.mk.inj heq
        exact ⟨c0, hl, hc⟩
      · exact hinv d c hmem
  | none =>
    simp only [writeResult, hl] at hmem ⊢
    obtain ⟨c0, hc0, hne⟩ := hinv d c hmem
    exact ⟨c0, lookup_append_of_some _ _ _ _ hc0, hne⟩

/-- Claim C3: in the CAS model, once a digest is present in the store of a
reachable state, every state reachable from it keeps the same stored
content for that digest — no later write transition changes it. -/
theorem c3_cas_immutability (s t : CasState) (_hs : CasReachable s)
    (hst : Relation.ReflTransGen CasStep s t) (d : Digest) (c : Content)
    (h : s.store.lookup d = some c) : t.store.lookup d = some c := by
  induction hst with
  | refl => exact h
  | tail _ hstep ih => exact casStep_store_mono hstep d c ih

/-- Witness for C3: after writing `(d1, c_a)` the binding survives a
subsequent write of `(d2, c_b)`. -/
theorem c3_witness :
    (writeResult (writeResult casInit .d1 .ca) .d2 .cb).store.lookup .d1 =
      some .ca :=
  c3_cas_immutability _ _
    (Relation.ReflTransGen.single ⟨.d1, .ca, by decide, rfl⟩)
    (Relation.ReflTransGen.single ⟨.d2, .cb, by decide, rfl⟩)
    .d1 .ca (by decide)

/-- Claim C5: starting from the empty store, `write(d1, c_a)` followed by
`write(d1, c_b)` leaves the store at `[(d1, c_a)]` with the collision
`(d1, c_b)` recorded as an error; the stored value at `d1` is `c_a` after
each of the two writes and is never `c_b`. -/
theorem c5_cas_collision_scenario :
    (writeResult (writeResult casInit .d1 .ca) .d1 .cb).store = [(.d1, .ca)] ∧
    (writeResult (writeResult casInit .d1 .ca) .d1 .cb).writesOk = {(.d1, .ca)} ∧
    (writeResult (writeResult casInit .d1 .ca) .d1 .cb).errors = {(.d1, .cb)} ∧
    (writeResult (writeResult casInit .d1 .ca) .d1 .cb).store.lookup .d1 = some .ca ∧
    (writeResult (writeResult casInit .d1 .ca) .d1 .cb).store.lookup .d1 ≠ some .cb ∧
    (writeResult casInit .d1 .ca).store.lookup .d1 = some .ca := by
  decide

theorem casReachable_errAccurate (s : CasState) (hs : CasReachable s) :
    CasErrAccurate s := by
  induction hs with
  | refl => exact casErrAccurate_init
  | tail _ hstep ih => exact casErrAccurate_step hstep ih

/-- Claim C8: in every reachable CAS state, every recorded collision error
`(d, c)` has `d` present in the store with a stored content different
from `c`. -/
theorem c8_collision_accuracy (s : CasState) (hs : CasReachable s)
    (d : Digest) (c : Content) (hmem : (d, c) ∈ s.errors) :
    ∃ c0, s.store.lookup d = some c0 ∧ c0 ≠ c :=
  casReachable_errAccurate s hs d c hmem

/-- Witness for C8: the state reached by `write(d1, c_a); write(d1, c_b)`
records the error `(d1, c_b)` and indeed stores a different content at `d1`. -/
theorem c8_witness :
    ∃ c0, (writeResult (writeResult casInit .d1 .ca) .d1 .cb).store.lookup .d1 =
      some c0 ∧ c0 ≠ .cb :=
  c8_collision_accuracy _
    (Relation.ReflTransGen.tail
      (Relation.ReflTransGen.single ⟨.d1, .ca, by decide, rfl⟩)
      ⟨.d1, .cb, by decide, rfl⟩)
    .d1 .cb (by decide)

/-! ### The CAS BFS driver loop (lines 44-116)

The Python loop condition is `while queue and not violations`, so a
non-empty violation list stops the whole search before any further state
is dequeued.  We model the loop as a fuel-indexed step function over the
checker configuration (queue, visited set, violation list, explored
counter); the fuel only caps the number of loop iterations and the
Python loop corresponds to running with sufficiently large fuel. -/

/-- Canonical deduplication key (line 48): the sorted store items are
order-insensitive, so we key on the store's item set together with the
two frozensets. -/
def stateKey (s : CasState) :
    Finset (Digest × Content) × Finset (Digest × Content) × Finset (Digest × Content) :=
  (s.store.toFinset, s.writesOk, s.errors)

/-- All `(digest, content)` pairs in canonical order; used to iterate over
the frozensets (Python set iteration order is unspecified). -/
def casPairs : List (Digest × Content) :=
  CAS_DIGESTS.flatMap fun d => CAS_CONTENT.map fun c => (d, c)

/-- The per-state invariant evaluation, lines 69-89 (CAS-INV-1, CAS-INV-2,
CAS-INV-4).  Python iterates over the frozensets `writes_ok` and `errors`;
we enumerate their members in the canonical `casPairs` order. -/
def casInvariantViolations (s : CasState) : List String :=
  ((casPairs.filter (fun dc => dc ∈ s.writesOk)).filterMap fun dc =>
    match s.store.lookup dc.1 with
    | some c0 =>
      if c0 ≠ dc.2 then
        some ("CAS-INV-1: digest " ++ digestStr dc.1 ++ " mapped to " ++
          contentStr c0 ++ " but write has " ++ contentStr dc.2)
      else none
    | none => none) ++
  ((casPairs.filter (fun dc => dc ∈ s.writesOk)).filterMap fun dc =>
    if dc ∈ s.errors then none
    else if s.store.lookup dc.1 ≠ some dc.2 then
      some ("CAS-INV-2: committed write (" ++ digestStr dc.1 ++ "," ++
        contentStr dc.2 ++ ") not readable from store")
    else none) ++
  ((casPairs.filter (fun dc => dc ∈ s.errors)).filterMap fun dc =>
    match s.store.lookup dc.1 with
    | none => some ("CAS-INV-4: error for (" ++ digestStr dc.1 ++ "," ++
        contentStr dc.2 ++ ") but no real collision")
    | some c0 =>
      if c0 = dc.2 then
        some ("CAS-INV-4: error for (" ++ digestStr dc.1 ++ "," ++
          contentStr dc.2 ++ ") but no real collision")
      else none)

/-- Successor generation, lines 95-116: one write action per `(d, c)` pair
not already recorded in `writes_ok`. -/
def casSuccessors (s : CasState) : List CasState :=
  CAS_DIGESTS.flatMap fun d =>
    CAS_CONTENT.filterMap fun c =>
      if (d, c) ∈ s.writesOk then none else some (writeResult s d c)

structure CasCfg where
  queue : List (CasState × Nat)
  visited : Finset (Finset (Digest × Content) × Finset (Digest × Content) ×
    Finset (Digest × Content))
  violations : List String
  explored : Nat
deriving DecidableEq

/-- Initial checker configuration (lines 44-57). -/
def casCfgInit : CasCfg := ⟨[(casInit, 0)], ∅, [], 0⟩

/-- One-pass embedding of the `while queue and not violations` BFS loop. -/
def casLoop (bound : Nat) : Nat → CasCfg → CasCfg
  | 0, cfg => cfg
  | fuel + 1, cfg =>
    if cfg.queue = [] ∨ cfg.violations ≠ [] then cfg
    else
      match cfg.queue with
      | [] => cfg
      | (s, depth) :: rest =>
        if stateKey s ∈ cfg.visited then
          casLoop bound fuel { cfg with queue := rest }
        else
          let violations' := cfg.violations ++ casInvariantViolations s
          if violations' ≠ [] ∨ bound ≤ depth then
            casLoop bound fuel
              { queue := rest
                visited := insert (stateKey s) cfg.visited
                violations := violations'
                explored := cfg.explored + 1 }
          else
            casLoop bound fuel
              { queue := rest ++ (casSuccessors s).map (fun s' => (s', depth + 1))
                visited := insert (stateKey s) cfg.visited
                violations := violations'
                explored := cfg.explored + 1 }

/-! ## Protocol model (`check_protocol`, model_checker.py lines 137-194)

Frame types; `TERMINAL = {"result", "error"}`.  The recursive `explore`
function is embedded with its `(depth, bound)` pair; the recursion is
well-founded because every recursive call increases `depth` and only
happens while `depth < bound`. -/

inductive Frame where
  | start
  | event
  | end_
  | result
  | error
deriving DecidableEq, Repr

def frameStr : Frame → String
  | .start => "start"
  | .event => "event"
  | .end_ => "end"
  | .result => "result"
  | .error => "error"

def isTerminal (f : Frame) : Bool :=
  f = Frame.result ∨ f = Frame.error

/-- PROTO-INV-1 (lines 150-151): a non-empty stream must begin with
`start`. -/
def inv1Check (stream : List Frame) : Option String :=
  match stream.head? with
  | some f =>
    if f = Frame.start then none
    else some ("PROTO-INV-1: first frame is " ++ frameStr f ++ ", expected start")
  | none => none

/-- PROTO-INV-2 (lines 152-154): a terminated stream must end in a
terminal frame. -/
def inv2Check (stream : List Frame) (terminated : Bool) : Option String :=
  if terminated then
    match stream.getLast? with
    | none => some "PROTO-INV-2: terminated=True but last frame is none"
    | some f =>
      if isTerminal f then none
      else some ("PROTO-INV-2: terminated=True but last frame is " ++ frameStr f)
  else none

/-- PROTO-INV-4 (lines 155-157): the indexed scan over the stream looking
for an `event` frame at index 0. -/
def inv4Scan : Nat → List Frame → Option String
  | _, [] => none
  | i, f :: rest =>
    if f = Frame.event ∧ i = 0 then
      some "PROTO-INV-4: event at index 0, no start before it"
    else inv4Scan (i + 1) rest

/-- `check_state` (lines 149-158): the three checks with Python's
early-return sequencing. -/
def checkState (stream : List Frame) (terminated : Bool) : Option String :=
  match inv1Check stream with
  | some e => some e
  | none =>
    match inv2Check stream terminated with
    | some e => some e
    | none => inv4Scan 0 stream

/-- The recursive `explore` (lines 160-181), returning the number of
states visited and the violations collected, in DFS order.  A violating
state stops its own branch (`violations.append(err); return`); a
terminated state or one at the depth bound is not expanded; otherwise the
state-dependent actions of lines 173-181 are expanded in order.  (The
source guards the expansion with a redundant `if not terminated`, which
always holds on that path.) -/
def protoExplore (bound depth : Nat) (stream : List Frame) (terminated : Bool) :
    Nat × List String :=
  match checkState stream terminated with
  | some e => (1, [e])
  | none =>
    if h : terminated = true ∨ bound ≤ depth then (1, [])
    else
      if stream = [] then
        (1 + (protoExplore bound (depth + 1) [Frame.start] false).1,
          (protoExplore bound (depth + 1) [Frame.start] false).2)
      else if stream.head? = some Frame.start then
        (1 + (protoExplore bound (depth + 1) (stream ++ [Frame.event]) false).1 +
          (if Frame.end_ ∈ stream then 0
            else (protoExplore bound (depth + 1) (stream ++ [Frame.end_]) false).1) +
          (protoExplore bound (depth + 1) (stream ++ [Frame.result]) true).1 +
          (protoExplore bound (depth + 1) (stream ++ [Frame.error]) true).1,
          (protoExplore bound (depth + 1) (stream ++ [Frame.event]) false).2 ++
          (if Frame.end_ ∈ stream then []
            else (protoExplore bound (depth + 1) (stream ++ [Frame.end_]) false).2) ++
          (protoExplore bound (depth + 1) (stream ++ [Frame.result]) true).2 ++
          (protoExplore bound (depth + 1) (stream ++ [Frame.error]) true).2)
      else (1, [])
termination_by bound - depth
decreasing_by all_goals (push_neg at h; omega)

/-- `check_protocol` (lines 137-194): run `explore([], False, 0)` and pass
iff no violations were collected; the returned count is `explored`. -/
def checkProtocol (bound : Nat) : Bool × Nat :=
  ((protoExplore bound 0 [] false).2.isEmpty, (protoExplore bound 0 [] false).1)

/-- The transition relation generated by the actions of lines 173-181. -/
inductive ProtoStep : List Frame × Bool → List Frame × Bool → Prop where
  | startAct : ProtoStep ([], false) ([Frame.start], false)
  | eventAct (s : List Frame) (h : s.head? = some Frame.start) :
      ProtoStep (s, false) (s ++ [Frame.event], false)
  | endAct (s : List Frame) (h : s.head? = some Frame.start)
      (hnotin : Frame.end_ ∉ s) :
      ProtoStep (s, false) (s ++ [Frame.end_], false)
  | resultAct (s : List Frame) (h : s.head? = some Frame.start) :
      ProtoStep (s, false) (s ++ [Frame.result], true)
  | errorAct (s : List Frame) (h : s.head? = some Frame.start) :
      ProtoStep (s, false) (s ++ [Frame.error], true)

/-- Reachability from the empty initial protocol state. -/
def ProtoReachable (p : List Frame × Bool) : Prop :=
  Relation.ReflTransGen ProtoStep ([], false) p

/-! ### Protocol state-check lemmas -/

theorem inv4Scan_pos (l : List Frame) (i : Nat) (hi : i ≠ 0) :
    inv4Scan i l = none := by
  induction l generalizing i with
  | nil => rfl
  | cons f rest ih =>
    unfold inv4Scan
    rw [if_neg (by simp [hi])]
    exact ih (i + 1) (by omega)

theorem checkState_nil_false : checkState [] false = none := rfl

theorem checkState_start_false : checkState [Frame.start] false = none := rfl

theorem checkState_none_inv1 {s : List Frame} {t : Bool}
    (h : checkState s t = none) : inv1Check s = none := by
  unfold checkState at h
  cases hv : inv1Check s with
  | none => rfl
  | some e => rw [hv] at h; exact absurd h (by simp)

theorem inv4Scan_start_cons (l : List Frame) :
    inv4Scan 0 (Frame.start :: l) = none := by
  unfold inv4Scan
  rw [if_neg (by simp)]
  exact inv4Scan_pos _ 1 (by omega)

/-- Appending any frame to an unterminated stream headed by `start` yields
a stream that passes `check_state` unterminated. -/
theorem checkState_append_false (s : List Frame) (f : Frame)
    (hh : s.head? = some Frame.start) :
    checkState (s ++ [f]) false = none := by
  cases s with
  | nil => simp at hh
  | cons g rest =>
    have hg : g = Frame.start := by simpa using hh
    subst hg
    rw [List.cons_append]
    simp [checkState, inv1Check, inv2Check, inv4Scan_start_cons]

/-- Appending a terminal frame to an unterminated stream headed by `start`
yields a stream that passes `check_state` terminated. -/
theorem checkState_append_terminal (s : List Frame) (f : Frame)
    (hh : s.head? = some Frame.start) (hf : isTerminal f = true) :
    checkState (s ++ [f]) true = none := by
  cases s with
  | nil => simp at hh
  | cons g rest =>
    have hg : g = Frame.start := by simpa using hh
    subst hg
    have hlast : (Frame.start :: (rest ++ [f])).getLast? = some f := by
      rw [← List.cons_append]
      exact List.getLast?_concat _
    rw [List.cons_append]
    simp [checkState, inv1Check, inv2Check, hlast, hf, inv4Scan_start_cons]

theorem inv1Check_none_head {s : List Frame} (hne : s ≠ [])
    (h : inv1Check s = none) : s.head? = some Frame.start := by
  cases s with
  | nil => exact absurd rfl hne
  | cons g rest =>
    unfold inv1Check at h
    simp only [List.head?_cons] at h ⊢
    by_cases hg : g = Frame.start
    · rw [hg]
    · rw [if_neg hg] at h
      exact absurd h (by simp)

/-- Every state the protocol `explore` expands to from a state passing
`check_state` also passes `check_state`; hence the whole subtree of a
clean state collects no violations. -/
theorem protoExplore_clean_aux (bound : Nat) :
    ∀ (k depth : Nat) (s : List Frame) (t : Bool), bound - depth ≤ k →
      checkState s t = none → (protoExplore bound depth s t).2 = [] := by
  intro k
  induction k with
  | zero =>
    intro depth s t hk hc
    rw [protoExplore, hc]
    rw [dif_pos (Or.inr (by omega))]
  | succ n ih =>
    intro depth s t hk hc
    rw [protoExplore, hc]
    by_cases hstop : t = true ∨ bound ≤ depth
    · rw [dif_pos hstop]
    · rw [dif_neg hstop]
      have hdepth : depth < bound := by
        rcases Nat.lt_or_ge depth bound with h | h
        · exact h
        · exact absurd (Or.inr h) hstop
      by_cases hs : s = []
      · rw [if_pos hs]
        exact ih (depth + 1) [Frame.start] false (by omega) checkState_start_false
      · have hhead : s.head? = some Frame.start :=
          inv1Check_none_head hs (checkState_none_inv1 hc)
        rw [if_neg hs, if_pos hhead]
        have he1 := ih (depth + 1) (s ++ [Frame.event]) false (by omega)
          (checkState_append_false s _ hhead)
        have he3 := ih (depth + 1) (s ++ [Frame.result]) true (by omega)
          (checkState_append_terminal s _ hhead rfl)
        have he4 := ih (depth + 1) (s ++ [Frame.error]) true (by omega)
          (checkState_append_terminal s _ hhead rfl)
        by_cases hend : Frame.end_ ∈ s
        · simp [hend, he1, he3, he4]
        · have he2 := ih (depth + 1) (s ++ [Frame.end_]) false (by omega)
            (checkState_append_false s _ hhead)
          simp [hend, he1, he2, he3, he4]

theorem protoExplore_clean (bound depth : Nat) (s : List Frame) (t : Bool)
    (hc : checkState s t = none) : (protoExplore bound depth s t).2 = [] :=
  protoExplore_clean_aux bound (bound - depth) depth s t (Nat.le_refl _) hc

theorem head?_append_start {s : List Frame} (hh : s.head? = some Frame.start)
    (f : Frame) : (s ++ [f]).head? = some Frame.start := by
  cases s with
  | nil => simp at hh
  | cons g rest => simpa using hh

/-- Claim C4: a single violation halts exploration immediately.  For the
CAS BFS loop, any configuration whose violation list is non-empty is
returned unchanged — no state is dequeued, visited, or counted, and no
further violation is collected.  For the protocol DFS, whenever an
invocation of `explore` collects any violation at all, it visited exactly
one state and collected exactly one violation (the subtree of a clean
state is violation-free, so a violating state is necessarily the root of
the invocation and is not expanded). -/
theorem c4_first_violation_halts :
    (∀ (bound fuel : Nat) (cfg : CasCfg), cfg.violations ≠ [] →
      casLoop bound fuel cfg = cfg) ∧
    (∀ (bound depth : Nat) (s : List Frame) (t : Bool),
      (protoExplore bound depth s t).2 ≠ [] →
      (protoExplore bound depth s t).1 = 1 ∧
      ∃ e, (protoExplore bound depth s t).2 = [e]) := by
  constructor
  · intro bound fuel cfg h
    cases fuel with
    | zero => rfl
    | succ n =>
      rw [casLoop]
      rw [if_pos (Or.inr h)]
  · intro bound depth s t h
    cases hc : checkState s t with
    | none => exact absurd (protoExplore_clean bound depth s t hc) h
    | some e =>
      rw [protoExplore, hc]
      exact ⟨rfl, e, rfl⟩

/-- Witness for C4: a CAS configuration already holding a violation is a
fixed point of the loop, and a protocol invocation whose root violates
PROTO-INV-1 visits one state and collects one violation. -/
theorem c4_witness :
    casLoop 3 5 ⟨[(casInit, 0)], ∅, ["v"], 0⟩ = ⟨[(casInit, 0)], ∅, ["v"], 0⟩ ∧
    ((protoExplore 3 0 [Frame.event] false).1 = 1 ∧
      ∃ e, (protoExplore 3 0 [Frame.event] false).2 = [e]) := by
  constructor
  · exact c4_first_violation_halts.1 3 5 _ (by simp)
  · refine c4_first_violation_halts.2 3 0 [Frame.event] false ?_
    rw [protoExplore,
      show checkState [Frame.event] false =
        some ("PROTO-INV-1: first frame is " ++ frameStr Frame.event ++
          ", expected start") from rfl]
    simp

/-- Claim C7: every protocol state reachable from the empty stream has a
stream that is empty or starts with `start`, every reachable terminated
stream ends in `result` or `error`, and the protocol check passes for
every bound. -/
theorem c7_protocol_well_formedness :
    (∀ p : List Frame × Bool, ProtoReachable p →
      (p.1 = [] ∨ p.1.head? = some Frame.start) ∧
      (p.2 = true → ∃ f, p.1.getLast? = some f ∧
        (f = Frame.result ∨ f = Frame.error))) ∧
    (∀ bound : Nat, (checkProtocol bound).1 = true) := by
  constructor
  · intro p hp
    induction hp with
    | refl => exact ⟨Or.inl rfl, by simp⟩
    | tail hprev hstep ih =>
      cases hstep with
      | startAct => exact ⟨Or.inr rfl, by simp⟩
      | eventAct s hh => exact ⟨Or.inr (head?_append_start hh _), by simp⟩
      | endAct s hh hnotin => exact ⟨Or.inr (head?_append_start hh _), by simp⟩
      | resultAct s hh =>
        exact ⟨Or.inr (head?_append_start hh _),
          fun _ => ⟨Frame.result, List.getLast?_concat _, Or.inl rfl⟩⟩
      | errorAct s hh =>
        exact ⟨Or.inr (head?_append_start hh _),
          fun _ => ⟨Frame.error, List.getLast?_concat _, Or.inr rfl⟩⟩
  · intro bound
    unfold checkProtocol
    rw [protoExplore_clean bound 0 [] false rfl]
    rfl

/-- Witness for C7: the stream `[start]` is reachable in one step and
satisfies the well-formedness conclusions; the bound-3 check passes. -/
theorem c7_witness :
    ((([Frame.start] : List Frame) = [] ∨
        ([Frame.start] : List Frame).head? = some Frame.start) ∧
      ((false : Bool) = true → ∃ f,
        ([Frame.start] : List Frame).getLast? = some f ∧
        (f = Frame.result ∨ f = Frame.error))) ∧
    (checkProtocol 3).1 = true :=
  ⟨c7_protocol_well_formedness.1 ([Frame.start], false)
      (Relation.ReflTransGen.single ProtoStep.startAct),
    c7_protocol_well_formedness.2 3⟩

/-! ## Replay model (`check_replay`, model_checker.py lines 202-256)

Each trial samples `exec_fn = dict(request -> random digest)` once and
uses it for every node execution and for the replay pass.  We model the
process-wide random source by quantifying over the per-trial sampled
functions `fns : Nat -> (String -> String)`.  The `results` dict stores
`results[(n, r)] = exec_fn[r]` for every node, so its lookup is exactly
`fn r`. -/

def REPLAY_REQUESTS : List String := ["req_a", "req_b"]

def REPLAY_NODES : List String := ["node_1", "node_2", "node_3"]

/-- The violations one trial produces (lines 232-245): REPLAY-INV-1 fires
when the set of per-node digests for a request has more than one element;
REPLAY-INV-3 fires when a replay-log entry disagrees with the recorded
`results[(n, r)]` (which is `fn r`). -/
def trialViolations (fn : String → String) : List String :=
  (REPLAY_REQUESTS.filterMap fun r =>
    if 1 < ((REPLAY_NODES.map fun _n => fn r).toFinset.card) then
      some ("REPLAY-INV-1: request " ++ r ++ " produced different digests")
    else none) ++
  ((REPLAY_NODES.flatMap fun n => REPLAY_REQUESTS.map fun r => (n, r, fn r)).filterMap
    fun e => if fn e.2.1 ≠ e.2.2 then
      some ("REPLAY-INV-3: replay(" ++ e.1 ++ "," ++ e.2.1 ++ ") disagrees with original")
    else none)

/-- The trial loop of line 214 runs `range(min(bound, 20))` trials and
accumulates all violations. -/
def replayViolations (bound : Nat) (fns : Nat → String → String) : List String :=
  (List.range (min bound 20)).flatMap fun t => trialViolations (fns t)

/-- `check_replay`: the pass/fail flag, the number of trials actually run
(the length of `range(min(bound, 20))`) and the trial count reported in
the summary line (lines 253 and 255 print `bound`). -/
def checkReplay (bound : Nat) (fns : Nat → String → String) : Bool × Nat × Nat :=
  ((replayViolations bound fns).isEmpty, (List.range (min bound 20)).length, bound)

theorem trialViolations_nil (fn : String → String) : trialViolations fn = [] := by
  unfold trialViolations
  simp [REPLAY_REQUESTS, REPLAY_NODES]

theorem replayViolations_nil (bound : Nat) (fns : Nat → String → String) :
    replayViolations bound fns = [] := by
  unfold replayViolations
  simp [trialViolations_nil]

/-- Claim C10: for every bound and every outcome of the random sampling,
the Replay check collects no violations and passes; in particular no
single trial can produce a REPLAY-INV-1 or REPLAY-INV-3 violation, since
both branches compare values of the one fixed sampled function with
itself. -/
theorem c10_replay_no_violations (bound : Nat) (fns : Nat → String → String)
    (fn : String → String) :
    trialViolations fn = [] ∧ replayViolations bound fns = [] ∧
    (checkReplay bound fns).1 = true := by
  refine ⟨trialViolations_nil fn, replayViolations_nil bound fns, ?_⟩
  unfold checkReplay
  rw [replayViolations_nil]
  rfl

/-- Counterexample for C2: invoked with bound 21, the Replay check runs
only `min(21, 20) = 20` trials, yet its summary reports 21 trials. -/
theorem c2_counterexample :
    (checkReplay 21 fun _ _ => "d_x").2.1 = 20 ∧
    (checkReplay 21 fun _ _ => "d_x").2.2 = 21 ∧ (20 : Nat) ≠ 21 := by
  refine ⟨?_, rfl, by omega⟩
  unfold checkReplay
  simp

/-- Claim C2 (amended): invoked with bound `b`, the Replay check runs
`min(b, 20)` independent trials — exactly `b` only when `b ≤ 20` — each
trial fixing one freshly sampled deterministic request-to-digest
function, and its summary reports `b` as the number of trials. -/
theorem c2_replay_trial_count (bound : Nat) (fns : Nat → String → String) :
    checkReplay bound fns = (true, min bound 20, bound) := by
  unfold checkReplay
  rw [replayViolations_nil]
  simp

/-! ## Determinism model (`check_determinism`, model_checker.py lines 264-327)

`simulate_hash` computes `hashlib.sha256((dom + inp).encode()).hexdigest()[:16]`
(the process-wide memo dict only caches this pure value, so it is modelled
as the pure function itself).  We embed SHA-256 over `Nat` with explicit
`% 2^32` wrap-around; all hashed strings here are ASCII, so UTF-8 bytes
coincide with character code points. -/

def w32 (n : Nat) : Nat := n % 4294967296

def rotr32 (n x : Nat) : Nat := w32 ((x >>> n) ||| (x <<< (32 - n)))

def bigS0 (x : Nat) : Nat := rotr32 2 x ^^^ rotr32 13 x ^^^ rotr32 22 x

def bigS1 (x : Nat) : Nat := rotr32 6 x ^^^ rotr32 11 x ^^^ rotr32 25 x

def smallS0 (x : Nat) : Nat := rotr32 7 x ^^^ rotr32 18 x ^^^ (x >>> 3)

def smallS1 (x : Nat) : Nat := rotr32 17 x ^^^ rotr32 19 x ^^^ (x >>> 10)

def chFn (x y z : Nat) : Nat := (x &&& y) ^^^ ((x ^^^ 4294967295) &&& z)

def majFn (x y z : Nat) : Nat := (x &&& y) ^^^ (x &&& z) ^^^ (y &&& z)

/-- The 64 SHA-256 round constants, written in decimal. -/
def SHA_K : List Nat :=
  [1116352408, 1899447441, 3049323471, 3921009573, 961987163,
   1508970993, 2453635748, 2870763221, 3624381080, 310598401,
   607225278, 1426881987, 1925078388, 2162078206, 2614888103,
   3248222580, 3835390401, 4022224774, 264347078, 604807628,
   770255983, 1249150122, 1555081692, 1996064986, 2554220882,
   2821834349, 2952996808, 3210313671, 3336571891, 3584528711,
   113926993, 338241895, 666307205, 773529912, 1294757372,
   1396182291, 1695183700, 1986661051, 2177026350, 2456956037,
   2730485921, 2820302411, 3259730800, 3345764771, 3516065817,
   3600352804, 4094571909, 275423344, 430227734, 506948616,
   659060556, 883997877, 958139571, 1322822218, 1537002063,
   1747873779, 1955562222, 2024104815, 2227730452, 2361852424,
   2428436474, 2756734187, 3204031479, 3329325298]

/-- The SHA-256 initial state words, written in decimal. -/
def SHA_H0 : List Nat :=
  [1779033703, 3144134277, 1013904242, 2773480762,
   1359893119, 2600822924, 528734635, 1541459225]

/-- `k` big-endian bytes of `n`. -/
def beBytes : Nat → Nat → List Nat
  | 0, _ => []
  | k + 1, n => beBytes k (n / 256) ++ [n % 256]

def sha256Pad (msg : List Nat) : List Nat :=
  msg ++ 128 :: List.replicate ((64 + 56 - ((msg.length + 1) % 64)) % 64) 0 ++
    beBytes 8 (msg.length * 8)

def toWords : List Nat → List Nat
  | b0 :: b1 :: b2 :: b3 :: rest =>
    (((b0 <<< 8 ||| b1) <<< 8 ||| b2) <<< 8 ||| b3) :: toWords rest
  | _ => []

/-- Split into 16-word blocks; the fuel argument (an upper bound on the
number of blocks) makes the recursion structural. -/
def chunks16Go : Nat → List Nat → List (List Nat)
  | 0, _ => []
  | _, [] => []
  | fuel + 1, w :: ws => ((w :: ws).take 16) :: chunks16Go fuel ((w :: ws).drop 16)

def chunks16 (l : List Nat) : List (List Nat) := chunks16Go l.length l

/-- Message-schedule extension from 16 to 64 words. -/
def schedule (block : List Nat) : List Nat :=
  (List.range 48).foldl (fun w _ =>
    w ++ [w32 (smallS1 (w.getD (w.length - 2) 0) + w.getD (w.length - 7) 0 +
      smallS0 (w.getD (w.length - 15) 0) + w.getD (w.length - 16) 0)]) block

def sha256Round (st : List Nat) (kw : Nat × Nat) : List Nat :=
  match st with
  | [a, b, c, d, e, f, g, hh] =>
    let t1 := w32 (hh + bigS1 e + chFn e f g + kw.1 + kw.2)
    let t2 := w32 (bigS0 a + majFn a b c)
    [w32 (t1 + t2), a, b, c, w32 (d + t1), e, f, g]
  | other => other

def compressBlock (h : List Nat) (block : List Nat) : List Nat :=
  (List.zip h ((List.zip SHA_K (schedule block)).foldl sha256Round h)).map
    fun p => w32 (p.1 + p.2)

def sha256Words (msg : List Nat) : List Nat :=
  (chunks16 (toWords (sha256Pad msg))).foldl compressBlock SHA_H0

def hexChar (n : Nat) : Char :=
  if n < 10 then Char.ofNat (48 + n) else Char.ofNat (87 + n)

def hexDigits : Nat → Nat → List Char
  | 0, _ => []
  | k + 1, n => hexDigits k (n / 16) ++ [hexChar (n % 16)]

def sha256HexDigest (msg : List Nat) : String :=
  String.mk ((sha256Words msg).flatMap (hexDigits 8))

def strBytes (s : String) : List Nat := s.data.map Char.toNat

/-- `simulate_hash` (lines 278-286): the truncated hex digest of the
domain-prefixed input. -/
def simulateHash (dom inp : String) : String :=
  (sha256HexDigest (strBytes (dom ++ inp))).take 16

def DET_DOMAINS : List String := ["req:", "res:", "cas:"]

def DET_INPUTS : List String := ["input_a", "input_b", "input_c", ""]

/-- `ops = itertools.product(DOMAIN_PREFIXES, INPUTS)` (line 289); the
shuffle only permutes the pool the random picks draw from, so sampling is
modelled as an arbitrary list of picks from this pool. -/
def detOps : List (String × String) :=
  DET_DOMAINS.flatMap fun p => DET_INPUTS.map fun i => (p, i)

/-- The recorded `hash_calls` for a sequence of random picks (lines
291-294): each pick `(p, i)` records `(p, i, simulate_hash(p, i))`. -/
def hashCalls (choices : List (String × String)) :
    List (String × String × String) :=
  choices.map fun c => (c.1, c.2, simulateHash c.1 c.2)

/-- `req_digests` (line 309). -/
def reqDigests (calls : List (String × String × String)) : List String :=
  calls.filterMap fun c =>
    if c.1 = "req:" ∧ c.2.1 = "input_a" then some c.2.2 else none

/-- `cas_digests` (line 310). -/
def casDigests (calls : List (String × String × String)) : List String :=
  calls.filterMap fun c =>
    if c.1 = "cas:" ∧ c.2.1 = "input_a" then some c.2.2 else none

/-- The DET-INV-2 check (lines 308-314): report iff the `req:` and `cas:`
digest sets for `input_a` intersect. -/
def detInv2Violations (calls : List (String × String × String)) : List String :=
  if (reqDigests calls).any (fun d => (casDigests calls).contains d) then
    ["DET-INV-2: domain prefix collision: req: and cas: share digests for same input"]
  else []

set_option maxRecDepth 40000 in
/-- The twelve truncated digests that `simulate_hash` can produce,
computed by kernel reduction of the SHA-256 embedding. -/
theorem simulateHash_table :
    simulateHash "req:" "input_a" = "1fac92706e13ee83" ∧
    simulateHash "req:" "input_b" = "ee5788109775a9b8" ∧
    simulateHash "req:" "input_c" = "fa5195c4f9976cfc" ∧
    simulateHash "req:" "" = "5faf44e0b6fe382d" ∧
    simulateHash "res:" "input_a" = "6430f96b948fb2b7" ∧
    simulateHash "res:" "input_b" = "3aff53a449b78307" ∧
    simulateHash "res:" "input_c" = "9acdfe4976a928da" ∧
    simulateHash "res:" "" = "89fa6af68e5a7a73" ∧
    simulateHash "cas:" "input_a" = "13f00662c0974d5c" ∧
    simulateHash "cas:" "input_b" = "231a4b22e515f3d0" ∧
    simulateHash "cas:" "input_c" = "cde63deb783fb3cc" ∧
    simulateHash "cas:" "" = "cb67e74b99919eeb" := by
  refine ⟨?_, ?_, ?_, ?_, ?_, ?_, ?_, ?_, ?_, ?_, ?_, ?_⟩ <;> rfl

/-- Domain separation over the concrete universe: distinct domains never
produce equal truncated digests for the same raw input. -/
theorem simulateHash_separation :
    ∀ p ∈ DET_DOMAINS, ∀ q ∈ DET_DOMAINS, ∀ i ∈ DET_INPUTS, p ≠ q →
      simulateHash p i ≠ simulateHash q i := by
  obtain ⟨h1, h2, h3, h4, h5, h6, h7, h8, h9, h10, h11, h12⟩ := simulateHash_table
  intro p hp q hq i hi hne
  simp only [DET_DOMAINS, List.mem_cons, List.not_mem_nil, or_false] at hp hq
  simp only [DET_INPUTS, List.mem_cons, List.not_mem_nil, or_false] at hi
  rcases hp with rfl | rfl | rfl <;> rcases hq with rfl | rfl | rfl <;>
    rcases hi with rfl | rfl | rfl | rfl <;>
    first
      | exact absurd rfl hne
      | (simp only [h1, h2, h3, h4, h5, h6, h7, h8, h9, h10, h11, h12]; decide)

theorem detOps_fst_snd (c : String × String) (hc : c ∈ detOps) :
    c.1 ∈ DET_DOMAINS ∧ c.2 ∈ DET_INPUTS := by
  unfold detOps at hc
  simp only [List.mem_flatMap, List.mem_map] at hc
  obtain ⟨p, hp, i, hi, rfl⟩ := hc
  exact ⟨hp, hi⟩

theorem reqDigests_hashCalls (choices : List (String × String)) (d : String)
    (hd : d ∈ reqDigests (hashCalls choices)) :
    d = simulateHash "req:" "input_a" := by
  unfold reqDigests at hd
  obtain ⟨call, hcall, hf⟩ := List.mem_filterMap.mp hd
  unfold hashCalls at hcall
  obtain ⟨c, hc, rfl⟩ := List.mem_map.mp hcall
  dsimp only at hf
  by_cases hcond : c.1 = "req:" ∧ c.2 = "input_a"
  · rw [if_pos hcond] at hf
    rw [← Option.some.inj hf, hcond.1, hcond.2]
  · rw [if_neg hcond] at hf
    exact absurd hf (by simp)

theorem casDigests_hashCalls (choices : List (String × String)) (d : String)
    (hd : d ∈ casDigests (hashCalls choices)) :
    d = simulateHash "cas:" "input_a" := by
  unfold casDigests at hd
  obtain ⟨call, hcall, hf⟩ := List.mem_filterMap.mp hd
  unfold hashCalls at hcall
  obtain ⟨c, hc, rfl⟩ := List.mem_map.mp hcall
  dsimp only at hf
  by_cases hcond : c.1 = "cas:" ∧ c.2 = "input_a"
  · rw [if_pos hcond] at hf
    rw [← Option.some.inj hf, hcond.1, hcond.2]
  · rw [if_neg hcond] at hf
    exact absurd hf (by simp)

theorem mem_DET_DOMAINS_req : ("req:" : String) ∈ DET_DOMAINS := by
  simp [DET_DOMAINS]

theorem mem_DET_DOMAINS_cas : ("cas:" : String) ∈ DET_DOMAINS := by
  simp [DET_DOMAINS]

theorem mem_DET_INPUTS_a : ("input_a" : String) ∈ DET_INPUTS := by
  simp [DET_INPUTS]

/-- Claim C6: (1) two distinct domain prefixes applied to the same raw
input never produce equal truncated-hash outputs; (2) consequently, for
every sequence of random picks, the recorded hash calls contain no pair of
entries with distinct prefixes and the same raw input sharing a digest,
and the DET-INV-2 check reports nothing; (3) the DET-INV-2 branch does
report a violation whenever the `req:` and `cas:` digest lists it compares
overlap. -/
theorem c6_domain_separation :
    (∀ p ∈ DET_DOMAINS, ∀ q ∈ DET_DOMAINS, ∀ i ∈ DET_INPUTS, p ≠ q →
      simulateHash p i ≠ simulateHash q i) ∧
    (∀ choices : List (String × String), (∀ c ∈ choices, c ∈ detOps) →
      (∀ e1 ∈ hashCalls choices, ∀ e2 ∈ hashCalls choices,
        e1.1 ≠ e2.1 → e1.2.1 = e2.2.1 → e1.2.2 ≠ e2.2.2) ∧
      detInv2Violations (hashCalls choices) = []) ∧
    (∀ calls : List (String × String × String),
      (∃ d, d ∈ reqDigests calls ∧ d ∈ casDigests calls) →
      detInv2Violations calls ≠ []) := by
  refine ⟨simulateHash_separation, ?_, ?_⟩
  · intro choices hchoices
    constructor
    · intro e1 he1 e2 he2 hne heq
      unfold hashCalls at he1 he2
      obtain ⟨c1, hc1, rfl⟩ := List.mem_map.mp he1
      obtain ⟨c2, hc2, rfl⟩ := List.mem_map.mp he2
      obtain ⟨hp1, hi1⟩ := detOps_fst_snd c1 (hchoices c1 hc1)
      obtain ⟨hp2, _⟩ := detOps_fst_snd c2 (hchoices c2 hc2)
      dsimp only at hne heq ⊢
      rw [← heq]
      exact simulateHash_separation c1.1 hp1 c2.1 hp2 c1.2 hi1 hne
    · have hno : ¬ ((reqDigests (hashCalls choices)).any fun d =>
          (casDigests (hashCalls choices)).contains d) = true := by
        simp only [List.any_eq_true, not_exists, not_and]
        intro d hdreq hdcontains
        have hdcas : d ∈ casDigests (hashCalls choices) := by
          simpa [List.contains, List.elem_eq_mem] using hdcontains
        have h1 := reqDigests_hashCalls choices d hdreq
        have h2 := casDigests_hashCalls choices d hdcas
        exact absurd (h1.symm.trans h2)
          (simulateHash_separation "req:" mem_DET_DOMAINS_req "cas:"
            mem_DET_DOMAINS_cas "input_a" mem_DET_INPUTS_a (by decide))
      unfold detInv2Violations
      rw [if_neg hno]
  · intro calls hcalls
    obtain ⟨d, hd1, hd2⟩ := hcalls
    have hyes : ((reqDigests calls).any fun d =>
        (casDigests calls).contains d) = true := by
      simp only [List.any_eq_true]
      refine ⟨d, hd1, ?_⟩
      simpa [List.contains, List.elem_eq_mem] using hd2
    unfold detInv2Violations
    rw [if_pos hyes]
    simp

/-- Witness for C6: the `req:`/`cas:` digests for `input_a` differ; a
recorded call list from one pick has no DET-INV-2 violation; and an
overlapping digest pair makes the DET-INV-2 branch fire. -/
theorem c6_witness :
    simulateHash "req:" "input_a" ≠ simulateHash "cas:" "input_a" ∧
    detInv2Violations (hashCalls [("req:", "input_a")]) = [] ∧
    detInv2Violations [("req:", "input_a", "x"), ("cas:", "input_a", "x")] ≠ [] :=
  ⟨c6_domain_separation.1 "req:" mem_DET_DOMAINS_req "cas:" mem_DET_DOMAINS_cas
      "input_a" mem_DET_INPUTS_a (by decide),
    (c6_domain_separation.2.1 [("req:", "input_a")] (by decide)).2,
    c6_domain_separation.2.2 [("req:", "input_a", "x"), ("cas:", "input_a", "x")]
      ⟨"x", by decide, by decide⟩⟩

/-! ## PolicyCompiler model (`check_policy_compiler`, lines 335-406)

The policy universe, the policy-to-constraint map and the conflict list
either come from an external JSON file or default to the built-in
3-policy universe.  Subsets are enumerated exhaustively (Python by size
via `itertools.combinations`; here via `sublists` — the same collection
of `2^n` subsets, and neither the pass flag nor the subset count depends
on enumeration order).  Python's `COMPILER_MAP[p]` raises `KeyError` for
an unmapped policy; every configuration used below maps all of its
policies, so lookup is modelled with an empty-set default. -/

/-- Python sets are modelled extensionally as lists compared and queried
by membership: `SetEq l1 l2` is Python `set(l1) == set(l2)`. -/
def SetEq (l1 l2 : List String) : Prop :=
  (∀ x ∈ l1, x ∈ l2) ∧ (∀ x ∈ l2, x ∈ l1)

instance setEqDecidable (l1 l2 : List String) : Decidable (SetEq l1 l2) :=
  inferInstanceAs (Decidable ((∀ x ∈ l1, x ∈ l2) ∧ (∀ x ∈ l2, x ∈ l1)))

structure PolicyConfig where
  policies : List String
  map : List (String × List String)
  conflicts : List (List String)

def mapGet (cfg : PolicyConfig) (p : String) : List String :=
  (cfg.map.lookup p).getD []

/-- The `generated_constraints` accumulation of lines 372-374
(`set.update` is union, here membership-preserving list union). -/
def generatedOf (mp : String → List String) (active : List String) : List String :=
  active.foldl (fun acc p => acc.union (mp p)) []

/-- The `has_conflict` double loop of lines 377-381: two distinct
generated constraints forming a declared conflict pair (`{c1, c2} in
CONFLICTS` is Python set equality against a list member). -/
def HasConflict (gen : List String) (conflicts : List (List String)) : Prop :=
  ∃ c1 ∈ gen, ∃ c2 ∈ gen, c1 ≠ c2 ∧ ∃ cl ∈ conflicts, SetEq cl [c1, c2]

instance hasConflictDecidable (gen : List String)
    (conflicts : List (List String)) : Decidable (HasConflict gen conflicts) :=
  inferInstanceAs (Decidable (∃ c1 ∈ gen, ∃ c2 ∈ gen, c1 ≠ c2 ∧
    ∃ cl ∈ conflicts, SetEq cl [c1, c2]))

/-- The POLICY-INV-2 double loop of lines 393-398. -/
def policyInv2 (conflicts : List (List String)) (gen : List String) : List String :=
  gen.flatMap fun c1 =>
    gen.filterMap fun c2 =>
      if ∃ cl ∈ conflicts, SetEq cl [c1, c2] then
        some ("POLICY-INV-2: Conflict " ++ c1 ++ "<->" ++ c2 ++ " passed compilation")
      else none

/-- The per-subset body of the loop in lines 367-398: under `not
has_conflict`, the POLICY-INV-1 completeness scan (lines 386-390,
`issubset` is membership inclusion) followed by the POLICY-INV-2 scan. -/
def subsetViolations (cfg : PolicyConfig) (active : List String) : List String :=
  if HasConflict (generatedOf (mapGet cfg) active) cfg.conflicts then []
  else
    (active.filterMap fun p =>
      if ∀ x ∈ mapGet cfg p, x ∈ generatedOf (mapGet cfg) active then none
      else some ("POLICY-INV-1: Policy " ++ p ++ " active but constraints missing")) ++
    policyInv2 cfg.conflicts (generatedOf (mapGet cfg) active)

/-- `check_policy_compiler`: pass iff no subset produced a violation,
together with the number of enumerated subsets.  Python enumerates
subsets by size via `itertools.combinations`; `sublists` enumerates the
same collection of `2^n` subsets, and neither the pass flag nor the
count depends on enumeration order.  Python's `COMPILER_MAP[p]` raises
`KeyError` for an unmapped policy; every configuration used below maps
all of its policies, so lookup is modelled with an empty default. -/
def checkPolicyCompiler (cfg : PolicyConfig) : Bool × Nat :=
  ((cfg.policies.sublists.flatMap (subsetViolations cfg)).isEmpty,
    cfg.policies.sublists.length)

/-- The built-in default definitions of lines 356-359. -/
def defaultPolicyConfig : PolicyConfig :=
  { policies := ["p1", "p2", "p3"]
    map := [("p1", ["c1"]), ("p2", ["c2"]), ("p3", ["c3"])]
    conflicts := [["c1", "c2"]] }

/-- The external policy-definition record (lines 345-354): a JSON object
whose three keys may each be absent; `data.get(key, default)` is
`Option.getD` with the empty default. -/
structure PolicyFileData where
  policies? : Option (List String)
  map? : Option (List (String × List String))
  conflicts? : Option (List (List String))

def loadPolicyConfig (d : PolicyFileData) : PolicyConfig :=
  { policies := d.policies?.getD []
    map := d.map?.getD []
    conflicts := d.conflicts?.getD [] }

theorem subset_foldl_union (mp : String → List String) (rest : List String)
    (init : List String) (x : String) (hx : x ∈ init) :
    x ∈ rest.foldl (fun acc p => acc.union (mp p)) init := by
  induction rest generalizing init with
  | nil => exact hx
  | cons a t ih => exact ih _ (List.mem_union_iff.mpr (Or.inl hx))

theorem mem_generated_aux (mp : String → List String) :
    ∀ (active init : List String) (p : String), p ∈ active →
      ∀ x ∈ mp p, x ∈ active.foldl (fun acc q => acc.union (mp q)) init := by
  intro active
  induction active with
  | nil => intro init p hp; simp at hp
  | cons a t ih =>
    intro init p hp x hx
    simp only [List.foldl_cons]
    rcases List.mem_cons.mp hp with rfl | hp'
    · exact subset_foldl_union mp t _ x (List.mem_union_iff.mpr (Or.inr hx))
    · exact ih _ p hp' x hx

/-- Claim C9: for every universe whose declared conflicts are genuine
unordered pairs, every subset whose generated constraints contain no
conflicting pair satisfies completeness (every active policy's declared
constraints are all generated) and consistency (no conflicting pair
appears among the generated constraints); with the built-in default
universe the check passes, enumerating all 8 subsets. -/
theorem c9_policy_completeness_consistency :
    (∀ (mp : String → List String) (conflicts : List (List String))
      (active : List String),
      (∀ cl ∈ conflicts, ∃ a b, a ≠ b ∧ SetEq cl [a, b]) →
      ¬ HasConflict (generatedOf mp active) conflicts →
      (∀ p ∈ active, ∀ x ∈ mp p, x ∈ generatedOf mp active) ∧
      (∀ c1 ∈ generatedOf mp active, ∀ c2 ∈ generatedOf mp active,
        ¬ ∃ cl ∈ conflicts, SetEq cl [c1, c2])) ∧
    checkPolicyCompiler defaultPolicyConfig = (true, 8) := by
  constructor
  · intro mp conflicts active hpairs hnc
    constructor
    · intro p hp
      exact mem_generated_aux mp active [] p hp
    · rintro c1 hc1 c2 hc2 ⟨cl, hcl, hseq⟩
      by_cases h12 : c1 = c2
      · subst h12
        obtain ⟨a, b, hab, hseq'⟩ := hpairs cl hcl
        have ha : a ∈ ([c1, c1] : List String) :=
          hseq.1 a (hseq'.2 a (by simp))
        have hb : b ∈ ([c1, c1] : List String) :=
          hseq.1 b (hseq'.2 b (by simp))
        simp only [List.mem_cons, List.not_mem_nil, or_false, or_self] at ha hb
        exact hab (ha.trans hb.symm)
      · exact hnc ⟨c1, hc1, c2, hc2, h12, cl, hcl, hseq⟩
  · decide

/-- Witness for C9: the generic completeness/consistency conclusions hold
for the default universe at the subset `[p1, p3]`, and the default check
passes on all 8 subsets. -/
theorem c9_witness :
    ((∀ p ∈ ["p1", "p3"], ∀ x ∈ mapGet defaultPolicyConfig p,
        x ∈ generatedOf (mapGet defaultPolicyConfig) ["p1", "p3"]) ∧
      (∀ c1 ∈ generatedOf (mapGet defaultPolicyConfig) ["p1", "p3"],
        ∀ c2 ∈ generatedOf (mapGet defaultPolicyConfig) ["p1", "p3"],
        ¬ ∃ cl ∈ defaultPolicyConfig.conflicts, SetEq cl [c1, c2])) ∧
    checkPolicyCompiler defaultPolicyConfig = (true, 8) := by
  refine ⟨c9_policy_completeness_consistency.1 (mapGet defaultPolicyConfig)
    defaultPolicyConfig.conflicts ["p1", "p3"] ?_ ?_,
    c9_policy_completeness_consistency.2⟩
  · intro cl hcl
    have : cl = ["c1", "c2"] := by simpa [defaultPolicyConfig] using hcl
    subst this
    exact ⟨"c1", "c2", by decide, by decide⟩
  · decide

theorem subsetViolations_nil (cfg : PolicyConfig) : subsetViolations cfg [] = [] := by
  have hnc : ¬ HasConflict (generatedOf (mapGet cfg) []) cfg.conflicts := by
    simp [HasConflict, generatedOf]
  unfold subsetViolations
  rw [if_neg hnc]
  simp [policyInv2, generatedOf]

/-- Counterexample for C1: a policy-definition file with all three keys
missing is not rejected — `data.get` silently substitutes the empty
defaults, and the check then runs and passes over the empty universe.
No configuration-error path exists in the loader: it is a total function
into configurations. -/
theorem c1_counterexample :
    loadPolicyConfig ⟨none, none, none⟩ =
      { policies := [], map := [], conflicts := [] } ∧
    checkPolicyCompiler (loadPolicyConfig ⟨none, none, none⟩) = (true, 1) :=
  ⟨rfl, by decide⟩

/-- Claim C1 (amended): missing keys in an external policy-definition
file are silently replaced by empty defaults and exploration proceeds
normally; in particular any file whose `policies` key is missing (or
empty) yields a passing run over the single empty subset, whatever the
other keys hold. -/
theorem c1_missing_keys_default (d : PolicyFileData)
    (h : d.policies? = none ∨ d.policies? = some []) :
    checkPolicyCompiler (loadPolicyConfig d) = (true, 1) := by
  have hpol : (loadPolicyConfig d).policies = [] := by
    rcases h with h | h <;> simp [loadPolicyConfig, h]
  unfold checkPolicyCompiler
  rw [hpol, List.sublists_nil]
  simp [subsetViolations_nil]

/-- Witness for C1: a file missing its `policies` key but carrying map
and conflict entries still loads with defaults and passes. -/
theorem c1_witness :
    checkPolicyCompiler (loadPolicyConfig
      ⟨none, some [("p1", ["c1"])], some [["c1", "c2"]]⟩) = (true, 1) :=
  c1_missing_keys_default _ (Or.inl rfl)
